import Mathlib

/-!
Shallow embedding of the todo-list application in `src/js/main.js`:
the `TodoItemFormatter` pure functions, the `TodoManager` store (its
collection of todo records plus the local-storage key it persists to),
and the `UIManager.handleAddTodo` handler.  Strings model JavaScript
strings, lists model arrays, and the browser local-storage slot for the
fixed key "todos" is modelled by the `Stored` type below.
-/

/-- A todo record as built by `TodoManager.addTodo`
(fields `id`, `task`, `dueDate`, `completed`, `status`). -/
structure Todo where
  id : String
  task : String
  dueDate : String
  completed : Bool
  status : String
deriving DecidableEq, Repr

/-- Model of the content of the local-storage slot for the key "todos":
the key can be absent (`getItem` returns `null`), hold a string that is
not valid JSON (`JSON.parse` throws), hold valid JSON denoting a falsy
value (`null`, `false`, `0`, `""`), or hold a JSON array of todo
records (`JSON.stringify` of a collection always produces this form). -/
inductive Stored where
  | absent : Stored
  | malformed : Stored
  | falsy : Stored
  | arr : List Todo → Stored
deriving DecidableEq, Repr

/-- Model of `JSON.parse(localStorage.getItem("todos"))`: an absent key
gives `null`, which `JSON.parse` coerces to the string "null" and parses
to the falsy value `null`; a malformed string makes `JSON.parse` throw
(modelled as `Except.error`); otherwise the parsed value is returned,
with `none` standing for any falsy parse result and `some l` for an
array of records. -/
def parseStored : Stored → Except Unit (Option (List Todo))
  | Stored.absent => Except.ok none
  | Stored.malformed => Except.error ()
  | Stored.falsy => Except.ok none
  | Stored.arr l => Except.ok (some l)

/-- `TodoItemFormatter.formatTask`: truncate to the first 14 characters
followed by "..." when the text is longer than 14 characters. -/
def formatTask (task : String) : String :=
  if task.length > 14 then String.mk (task.data.take 14) ++ "..." else task

/-- `TodoItemFormatter.formatDueDate`: `dueDate || "No due date"`
(the empty string is the falsy string). -/
def formatDueDate (dueDate : String) : String :=
  if dueDate = "" then "No due date" else dueDate

/-- `TodoItemFormatter.formatStatus`. -/
def formatStatus (completed : Bool) : String :=
  if completed then "Completed" else "Pending"

/-- The state of a `TodoManager`: its in-memory `todos` array and the
local-storage slot it persists to. -/
structure TodoManager where
  todos : List Todo
  storage : Stored
deriving DecidableEq, Repr

namespace TodoManager

/-- `saveToLocalStorage`: `localStorage.setItem("todos", JSON.stringify(this.todos))`.
Serialization of the collection is lossless, so the written slot holds
exactly the collection. -/
def saveToLocalStorage (todos : List Todo) : Stored :=
  Stored.arr todos

/-- The `TodoManager` constructor:
`this.todos = JSON.parse(localStorage.getItem("todos")) || []`.
A thrown parse error propagates out of the constructor (there is no
try/catch), so construction fails; a falsy parse result falls back to
the empty array; the constructor performs no write to storage. -/
def construct (stored : Stored) : Except Unit TodoManager :=
  match parseStored stored with
  | Except.error e => Except.error e
  | Except.ok v => Except.ok { todos := v.getD [], storage := stored }

/-- `TodoManager.addTodo`: build the new record (formatted task and due
date, `completed := false`, `status := "pending"`, id from
`getRandomId` — the random fragments are passed in as `rnd`), push it,
persist, and return it. -/
def addTodo (rnd task dueDate : String) (s : TodoManager) : TodoManager × Todo :=
  let newTodo : Todo :=
    { id := rnd
      task := formatTask task
      dueDate := formatDueDate dueDate
      completed := false
      status := "pending" }
  let todos := s.todos ++ [newTodo]
  ({ todos := todos, storage := saveToLocalStorage todos }, newTodo)

/-- Helper for `editTodo`: `this.todos.find((t) => t.id === id)` followed
by the in-place mutation `todo.task = updatedTask` of the found record.
Returns the updated array together with the mutated record (the value
`editTodo` returns), or `none` when no record matches. -/
def editList (id updatedTask : String) : List Todo → List Todo × Option Todo
  | [] => ([], none)
  | t :: ts =>
    if t.id = id then
      ({ t with task := updatedTask } :: ts, some { t with task := updatedTask })
    else
      (t :: (editList id updatedTask ts).1, (editList id updatedTask ts).2)

/-- `TodoManager.editTodo`: find the record by id; if found, overwrite
its `task` with the raw replacement text and persist; return the record
(`undefined`, here `none`, when not found — in that case nothing is
mutated and nothing is written). -/
def editTodo (id updatedTask : String) (s : TodoManager) : TodoManager × Option Todo :=
  match (editList id updatedTask s.todos).2 with
  | some t =>
    ({ todos := (editList id updatedTask s.todos).1
       storage := saveToLocalStorage (editList id updatedTask s.todos).1 }, some t)
  | none => (s, none)

/-- `TodoManager.deleteTodo`:
`this.todos = this.todos.filter((todo) => todo.id !== id)` followed by an
unconditional `saveToLocalStorage`. -/
def deleteTodo (id : String) (s : TodoManager) : TodoManager :=
  let todos := s.todos.filter (fun todo => todo.id != id)
  { todos := todos, storage := saveToLocalStorage todos }

/-- Helper for `toggleTodoStatus`: `this.todos.find((t) => t.id === id)`
followed by the in-place flip `todo.completed = !todo.completed` of the
found record.  Returns the updated array and whether a match was found. -/
def toggleList (id : String) : List Todo → List Todo × Bool
  | [] => ([], false)
  | t :: ts =>
    if t.id = id then
      ({ t with completed := !t.completed } :: ts, true)
    else
      (t :: (toggleList id ts).1, (toggleList id ts).2)

/-- `TodoManager.toggleTodoStatus`: flip `completed` on the first record
matching the id and persist; when no record matches, do nothing and
write nothing. -/
def toggleTodoStatus (id : String) (s : TodoManager) : TodoManager :=
  if (toggleList id s.todos).2 then
    { todos := (toggleList id s.todos).1
      storage := saveToLocalStorage (toggleList id s.todos).1 }
  else s

/-- `TodoManager.clearAllTodos`: empty the collection and persist, but
only when the collection was non-empty. -/
def clearAllTodos (s : TodoManager) : TodoManager :=
  if s.todos.length > 0 then
    { todos := [], storage := saveToLocalStorage [] }
  else s

/-- `TodoManager.filterTodos`: switch on the status string; "all" returns
the collection itself, "pending" the non-completed records, "completed"
the completed ones, and anything else the empty array. -/
def filterTodos (status : String) (s : TodoManager) : List Todo :=
  if status = "all" then s.todos
  else if status = "pending" then s.todos.filter (fun todo => !todo.completed)
  else if status = "completed" then s.todos.filter (fun todo => todo.completed)
  else []

end TodoManager

/-- One store mutation, as invocable through the `TodoManager` API; the
`rnd` argument of `add` stands for the id produced by `getRandomId`
(two concatenated random base-36 fragments, generated with no
uniqueness check). -/
inductive Op where
  | add (rnd task dueDate : String) : Op
  | edit (id updatedTask : String) : Op
  | delete (id : String) : Op
  | toggle (id : String) : Op
  | clearAll : Op
deriving DecidableEq, Repr

/-- Apply one mutation to a `TodoManager` state. -/
def applyOp (s : TodoManager) : Op → TodoManager
  | Op.add rnd task dueDate => (TodoManager.addTodo rnd task dueDate s).1
  | Op.edit id updatedTask => (TodoManager.editTodo id updatedTask s).1
  | Op.delete id => TodoManager.deleteTodo id s
  | Op.toggle id => TodoManager.toggleTodoStatus id s
  | Op.clearAll => TodoManager.clearAllTodos s

/-- The state of a freshly constructed store on a first visit: empty
collection, key absent. -/
def initState : TodoManager :=
  { todos := [], storage := Stored.absent }

/-- Run a sequence of mutations from the initial state. -/
def run (ops : List Op) : TodoManager :=
  ops.foldl applyOp initState

/-- A collection state is reachable when some sequence of API calls
produces it from the initial state. -/
def Reachable (s : TodoManager) : Prop :=
  ∃ ops : List Op, run ops = s

/-- The state of the `UIManager` pieces that `handleAddTodo` touches:
the task text input, the due-date input, the alert box (message and
severity class, `none` when no alert has been shown), and the store. -/
structure UIState where
  taskInput : String
  dateInput : String
  alertMessage : Option (String × String)
  manager : TodoManager
deriving DecidableEq, Repr

/-- `UIManager.handleAddTodo`: read both inputs; on empty task text show
the error alert "Please enter a task" and stop; otherwise call
`addTodo` (with `rnd` standing for the generated id), clear both
inputs, and show the success alert. -/
def handleAddTodo (rnd : String) (ui : UIState) : UIState :=
  let task := ui.taskInput
  let dueDate := ui.dateInput
  if task = "" then
    { ui with alertMessage := some ("Please enter a task", "error") }
  else
    { taskInput := ""
      dateInput := ""
      alertMessage := some ("Task added successfully", "success")
      manager := (TodoManager.addTodo rnd task dueDate ui.manager).1 }

/-! Helper lemmas. -/

lemma formatTask_of_long (x : String) (h : x.length > 14) :
    formatTask x = String.mk (x.data.take 14 ++ ['.', '.', '.']) := by
  unfold formatTask
  rw [if_pos h]
  rfl

lemma length_take14 (x : String) (h : x.length > 14) :
    (x.data.take 14).length = 14 := by
  rw [List.length_take]
  have hx : x.length = x.data.length := rfl
  omega

lemma formatTask_idem (x : String) : formatTask (formatTask x) = formatTask x := by
  by_cases h : x.length > 14
  · rw [formatTask_of_long x h]
    have h14 := length_take14 x h
    have hlen : (String.mk (x.data.take 14 ++ ['.', '.', '.'])).length = 17 := by
      show (x.data.take 14 ++ ['.', '.', '.']).length = 17
      rw [List.length_append, h14]
      rfl
    unfold formatTask
    rw [if_pos (by omega : (String.mk (x.data.take 14 ++ ['.', '.', '.'])).length > 14)]
    show String.mk ((x.data.take 14 ++ ['.', '.', '.']).take 14) ++ "..."
        = String.mk (x.data.take 14 ++ ['.', '.', '.'])
    rw [List.take_left' h14]
    rfl
  · unfold formatTask
    rw [if_neg h, if_neg h]

lemma editList_not_found (id task : String) (l : List Todo)
    (h : ∀ t ∈ l, t.id ≠ id) : TodoManager.editList id task l = (l, none) := by
  induction l with
  | nil => rfl
  | cons t ts ih =>
    have ht : t.id ≠ id := h t (List.mem_cons_self t ts)
    simp only [TodoManager.editList, if_neg ht,
      ih fun u hu => h u (List.mem_cons_of_mem t hu)]

lemma editList_found (id task : String) :
    ∀ (l₁ : List Todo) (t : Todo) (l₂ : List Todo),
      (∀ u ∈ l₁, u.id ≠ id) → t.id = id →
        TodoManager.editList id task (l₁ ++ t :: l₂)
          = (l₁ ++ { t with task := task } :: l₂, some { t with task := task }) := by
  intro l₁
  induction l₁ with
  | nil =>
    intro t l₂ _ ht
    simp only [List.nil_append, TodoManager.editList, if_pos ht]
  | cons u us ih =>
    intro t l₂ h ht
    have hu : u.id ≠ id := h u (List.mem_cons_self u us)
    simp only [List.cons_append, TodoManager.editList, if_neg hu, List.append_eq,
      ih t l₂ (fun v hv => h v (List.mem_cons_of_mem u hv)) ht]

lemma editList_map {α : Type} (id task : String) (f : Todo → α)
    (hf : ∀ t : Todo, f { t with task := task } = f t) (l : List Todo) :
    (TodoManager.editList id task l).1.map f = l.map f := by
  induction l with
  | nil => rfl
  | cons t ts ih =>
    by_cases h : t.id = id
    · simp only [TodoManager.editList, if_pos h, List.map_cons]
      rw [hf t]
    · simp [TodoManager.editList, h, ih]

lemma editTodo_map {α : Type} (id task : String) (f : Todo → α)
    (hf : ∀ t : Todo, f { t with task := task } = f t) (s : TodoManager) :
    (TodoManager.editTodo id task s).1.todos.map f = s.todos.map f := by
  rcases h : (TodoManager.editList id task s.todos).2 with _ | t
  · simp [TodoManager.editTodo, h]
  · simp [TodoManager.editTodo, h, editList_map id task f hf]

lemma toggleList_not_found (id : String) (l : List Todo)
    (h : ∀ t ∈ l, t.id ≠ id) : TodoManager.toggleList id l = (l, false) := by
  induction l with
  | nil => rfl
  | cons t ts ih =>
    have ht : t.id ≠ id := h t (List.mem_cons_self t ts)
    simp only [TodoManager.toggleList, if_neg ht,
      ih fun u hu => h u (List.mem_cons_of_mem t hu)]

lemma toggleList_found (id : String) :
    ∀ (l₁ : List Todo) (t : Todo) (l₂ : List Todo),
      (∀ u ∈ l₁, u.id ≠ id) → t.id = id →
        TodoManager.toggleList id (l₁ ++ t :: l₂)
          = (l₁ ++ { t with completed := !t.completed } :: l₂, true) := by
  intro l₁
  induction l₁ with
  | nil =>
    intro t l₂ _ ht
    simp only [List.nil_append, TodoManager.toggleList, if_pos ht]
  | cons u us ih =>
    intro t l₂ h ht
    have hu : u.id ≠ id := h u (List.mem_cons_self u us)
    simp only [List.cons_append, TodoManager.toggleList, if_neg hu, List.append_eq,
      ih t l₂ (fun v hv => h v (List.mem_cons_of_mem u hv)) ht]

lemma toggleList_map {α : Type} (id : String) (f : Todo → α)
    (hf : ∀ t : Todo, f { t with completed := !t.completed } = f t) (l : List Todo) :
    (TodoManager.toggleList id l).1.map f = l.map f := by
  induction l with
  | nil => rfl
  | cons t ts ih =>
    by_cases h : t.id = id
    · simp only [TodoManager.toggleList, if_pos h, List.map_cons]
      rw [hf t]
    · simp [TodoManager.toggleList, h, ih]

lemma toggleList_toggleList (id : String) (l : List Todo) :
    TodoManager.toggleList id (TodoManager.toggleList id l).1
      = (l, (TodoManager.toggleList id l).2) := by
  induction l with
  | nil => rfl
  | cons t ts ih =>
    obtain ⟨tid, ttask, tdue, tcomp, tstat⟩ := t
    by_cases h : tid = id
    · simp [TodoManager.toggleList, h, Bool.not_not]
    · simp [TodoManager.toggleList, h, ih]

lemma toggleTodoStatus_map {α : Type} (id : String) (f : Todo → α)
    (hf : ∀ t : Todo, f { t with completed := !t.completed } = f t) (s : TodoManager) :
    (TodoManager.toggleTodoStatus id s).todos.map f = s.todos.map f := by
  by_cases h : (TodoManager.toggleList id s.todos).2 = true
  · simp [TodoManager.toggleTodoStatus, h, toggleList_map id f hf]
  · simp [TodoManager.toggleTodoStatus, h]

/-! Claim theorems. -/

/-- C1 counterexample: the stored string that fails to parse as JSON
makes construction fail — `JSON.parse` throws and the `TodoManager`
constructor has no handler, so the collection is not the empty
collection and construction does not succeed, contrary to the claim. -/
theorem construct_malformed_fails :
    TodoManager.construct Stored.malformed = Except.error () := rfl

/-- C1 (amended): when the key is absent (or holds JSON denoting a falsy
value) construction succeeds with an empty collection and the storage
slot untouched; when the stored string is malformed JSON, the parse
error propagates and construction fails; a stored array is loaded
as-is. -/
theorem construct_spec :
    TodoManager.construct Stored.absent
      = Except.ok { todos := [], storage := Stored.absent }
    ∧ TodoManager.construct Stored.falsy
      = Except.ok { todos := [], storage := Stored.falsy }
    ∧ TodoManager.construct Stored.malformed = Except.error ()
    ∧ ∀ l : List Todo,
        TodoManager.construct (Stored.arr l)
          = Except.ok { todos := l, storage := Stored.arr l } :=
  ⟨rfl, rfl, rfl, fun _ => rfl⟩

/-- C3 counterexample: adding the long task text does not store the
string "This is a ver..." claimed by the spec (the stored text keeps
14 characters before the ellipsis, and "This is a ver" has only 13). -/
theorem addTodo_long_task_ne_claimed :
    (TodoManager.addTodo "id1" "This is a very long task description" "2024-01-01"
        initState).2.task ≠ "This is a ver..." := by decide

/-- C3 (amended): adding the task text "This is a very long task
description" stores a record whose task field is exactly
"This is a very..." — the first 14 characters of the input followed by
the 3-character ellipsis marker — and appends that record to the
collection. -/
theorem addTodo_long_task_truncates (rnd dueDate : String) (s : TodoManager) :
    (TodoManager.addTodo rnd "This is a very long task description" dueDate s).2.task
      = "This is a very..."
    ∧ (TodoManager.addTodo rnd "This is a very long task description" dueDate s).1.todos
      = s.todos
        ++ [(TodoManager.addTodo rnd "This is a very long task description" dueDate s).2] :=
  ⟨rfl, rfl⟩

/-- C10: formatTask is idempotent on every input string, not only on
short ones, so the render path's re-application of formatTask to the
already-formatted task text stored by addTodo never changes what is
displayed. -/
theorem formatTask_idempotent (x rnd task dueDate : String) (s : TodoManager) :
    formatTask (formatTask x) = formatTask x
    ∧ formatTask ((TodoManager.addTodo rnd task dueDate s).2.task)
      = (TodoManager.addTodo rnd task dueDate s).2.task :=
  ⟨formatTask_idem x, formatTask_idem task⟩

/-- C4: on every collection state, filtering by "all" returns exactly
the current collection (same list, so in insertion order); "pending"
and "completed" return exactly the non-completed and completed records
and partition the "all" view with no overlap; any other criterion
returns the empty sequence. -/
theorem filterTodos_spec (s : TodoManager) :
    TodoManager.filterTodos "all" s = s.todos
    ∧ List.Perm
        (TodoManager.filterTodos "pending" s ++ TodoManager.filterTodos "completed" s)
        (TodoManager.filterTodos "all" s)
    ∧ (∀ t : Todo,
        t ∈ TodoManager.filterTodos "pending" s ↔ t ∈ s.todos ∧ t.completed = false)
    ∧ (∀ t : Todo,
        t ∈ TodoManager.filterTodos "completed" s ↔ t ∈ s.todos ∧ t.completed = true)
    ∧ (∀ t : Todo,
        t ∈ TodoManager.filterTodos "pending" s →
          t ∉ TodoManager.filterTodos "completed" s)
    ∧ (∀ status : String,
        status ≠ "all" → status ≠ "pending" → status ≠ "completed" →
          TodoManager.filterTodos status s = []) := by
  refine ⟨?_, ?_, ?_, ?_, ?_, ?_⟩
  · simp [TodoManager.filterTodos]
  · have hp := List.filter_append_perm (fun t : Todo => !t.completed) s.todos
    simp only [TodoManager.filterTodos]
    simp only [String.reduceEq, if_false, if_true, reduceIte]
    simpa [Bool.not_not] using hp
  · intro t
    simp [TodoManager.filterTodos, List.mem_filter]
  · intro t
    simp [TodoManager.filterTodos, List.mem_filter]
  · intro t hp hc
    simp [TodoManager.filterTodos, List.mem_filter] at hp hc
    rw [hp.2] at hc
    exact absurd hc.2 (by decide)
  · intro status h1 h2 h3
    simp [TodoManager.filterTodos, h1, h2, h3]

/-- C4 witness: a criterion other than the three known ones yields the
empty sequence on the initial state. -/
theorem filterTodos_spec_witness :
    TodoManager.filterTodos "bogus" initState = [] :=
  (filterTodos_spec initState).2.2.2.2.2 "bogus" (by decide) (by decide) (by decide)

/-- C8: deleteTodo removes exactly the records whose id matches (keeping
the rest in order, as a sublist), persists the resulting collection
unconditionally — also when nothing matched, in which case the
collection is unchanged and no error occurs — and is idempotent:
deleting the same id twice equals deleting it once. -/
theorem deleteTodo_spec (s : TodoManager) (id : String) :
    (∀ t : Todo, t ∈ (TodoManager.deleteTodo id s).todos ↔ t ∈ s.todos ∧ t.id ≠ id)
    ∧ List.Sublist (TodoManager.deleteTodo id s).todos s.todos
    ∧ (TodoManager.deleteTodo id s).storage
      = Stored.arr (TodoManager.deleteTodo id s).todos
    ∧ TodoManager.deleteTodo id (TodoManager.deleteTodo id s)
      = TodoManager.deleteTodo id s
    ∧ ((∀ t ∈ s.todos, t.id ≠ id) → (TodoManager.deleteTodo id s).todos = s.todos) := by
  refine ⟨?_, ?_, rfl, ?_, ?_⟩
  · intro t
    simp [TodoManager.deleteTodo, List.mem_filter, bne_iff_ne]
  · exact List.filter_sublist s.todos
  · simp [TodoManager.deleteTodo, TodoManager.saveToLocalStorage, List.filter_filter]
  · intro h
    simp only [TodoManager.deleteTodo]
    exact List.filter_eq_self.mpr fun a ha => by simpa [bne_iff_ne] using h a ha

/-- C8 witness: deleting an absent id from the initial state leaves the
collection unchanged. -/
theorem deleteTodo_spec_witness :
    (TodoManager.deleteTodo "z" initState).todos = initState.todos :=
  (deleteTodo_spec initState "z").2.2.2.2 fun t ht => by simp [initState] at ht

/-- C5: editTodo with an id present in the collection overwrites the
located record's task field with the raw (unformatted) replacement
text, leaves every other record untouched, persists the resulting
collection, and returns the updated record; with an absent id it
returns the not-found signal, leaves the collection unchanged, and
performs no persistence write. -/
theorem editTodo_spec (s : TodoManager) (id newTask : String) :
    ((∀ t ∈ s.todos, t.id ≠ id) → TodoManager.editTodo id newTask s = (s, none))
    ∧ (∀ (l₁ : List Todo) (t : Todo) (l₂ : List Todo),
        s.todos = l₁ ++ t :: l₂ → t.id = id → (∀ u ∈ l₁, u.id ≠ id) →
          TodoManager.editTodo id newTask s
            = ({ todos := l₁ ++ { t with task := newTask } :: l₂
                 storage := Stored.arr (l₁ ++ { t with task := newTask } :: l₂) },
               some { t with task := newTask })) := by
  constructor
  · intro h
    have he := editList_not_found id newTask s.todos h
    simp [TodoManager.editTodo, he]
  · intro l₁ t l₂ hs ht hl
    have he := editList_found id newTask l₁ t l₂ hl ht
    simp [TodoManager.editTodo, hs, he, TodoManager.saveToLocalStorage]

/-- C5 witness: editing the only record of a one-record collection
replaces its task text with the raw replacement and persists. -/
theorem editTodo_spec_witness :
    TodoManager.editTodo "a" "new raw text"
        { todos := [⟨"a", "old", "No due date", false, "pending"⟩]
          storage := Stored.absent }
      = ({ todos := [⟨"a", "new raw text", "No due date", false, "pending"⟩]
           storage := Stored.arr [⟨"a", "new raw text", "No due date", false, "pending"⟩] },
         some ⟨"a", "new raw text", "No due date", false, "pending"⟩) :=
  (editTodo_spec
      { todos := [⟨"a", "old", "No due date", false, "pending"⟩]
        storage := Stored.absent } "a" "new raw text").2
    [] ⟨"a", "old", "No due date", false, "pending"⟩ [] rfl rfl
    (fun u hu => absurd hu (List.not_mem_nil u))

/-- C6: applying toggleTodoStatus twice with the same id restores the
collection exactly (in particular the matched record's original
completed value); with an absent id a single toggleTodoStatus is a
strict no-op that performs no persistence write. -/
theorem toggleTodoStatus_spec (s : TodoManager) (id : String) :
    (TodoManager.toggleTodoStatus id (TodoManager.toggleTodoStatus id s)).todos = s.todos
    ∧ ((∀ t ∈ s.todos, t.id ≠ id) → TodoManager.toggleTodoStatus id s = s) := by
  constructor
  · by_cases h : (TodoManager.toggleList id s.todos).2 = true
    · have h2 := toggleList_toggleList id s.todos
      simp [TodoManager.toggleTodoStatus, h, h2]
    · have hs : TodoManager.toggleTodoStatus id s = s := by
        simp [TodoManager.toggleTodoStatus, h]
      rw [hs, hs]
  · intro h
    have ht := toggleList_not_found id s.todos h
    simp [TodoManager.toggleTodoStatus, ht]

/-- C6 witness: toggling an id absent from the initial state leaves the
whole manager state unchanged. -/
theorem toggleTodoStatus_spec_witness :
    TodoManager.toggleTodoStatus "z" initState = initState :=
  (toggleTodoStatus_spec initState "z").2 fun t ht => by simp [initState] at ht

/-- C7: addTodo fixes status to "pending"; toggleTodoStatus never
changes any record's status, id, task, or dueDate field, and on a
matched record changes exactly its completed flag while every other
record is untouched; editTodo never changes any status field; and
deleteTodo only removes records, so every surviving record is one of
the original records. -/
theorem status_never_updated (s : TodoManager) (rnd task dueDate id newTask : String) :
    (TodoManager.addTodo rnd task dueDate s).2.status = "pending"
    ∧ (TodoManager.toggleTodoStatus id s).todos.map Todo.status
      = s.todos.map Todo.status
    ∧ (TodoManager.toggleTodoStatus id s).todos.map Todo.id = s.todos.map Todo.id
    ∧ (TodoManager.toggleTodoStatus id s).todos.map Todo.task = s.todos.map Todo.task
    ∧ (TodoManager.toggleTodoStatus id s).todos.map Todo.dueDate
      = s.todos.map Todo.dueDate
    ∧ (∀ (l₁ : List Todo) (t : Todo) (l₂ : List Todo),
        s.todos = l₁ ++ t :: l₂ → t.id = id → (∀ u ∈ l₁, u.id ≠ id) →
          (TodoManager.toggleTodoStatus id s).todos
            = l₁ ++ { t with completed := !t.completed } :: l₂)
    ∧ (TodoManager.editTodo id newTask s).1.todos.map Todo.status
      = s.todos.map Todo.status
    ∧ (∀ t ∈ (TodoManager.deleteTodo id s).todos, t ∈ s.todos) := by
  refine ⟨rfl, ?_, ?_, ?_, ?_, ?_, ?_, ?_⟩
  · exact toggleTodoStatus_map id Todo.status (fun t => rfl) s
  · exact toggleTodoStatus_map id Todo.id (fun t => rfl) s
  · exact toggleTodoStatus_map id Todo.task (fun t => rfl) s
  · exact toggleTodoStatus_map id Todo.dueDate (fun t => rfl) s
  · intro l₁ t l₂ hs ht hl
    have hf := toggleList_found id l₁ t l₂ hl ht
    simp [TodoManager.toggleTodoStatus, hs, hf]
  · exact editTodo_map id newTask Todo.status (fun t => rfl) s
  · intro t ht
    exact List.mem_of_mem_filter ht

/-- C7 witness: toggling the only record of a one-record collection
flips exactly its completed flag and keeps all its other fields. -/
theorem status_never_updated_witness :
    (TodoManager.toggleTodoStatus "a"
        { todos := [⟨"a", "x", "No due date", false, "pending"⟩]
          storage := Stored.absent }).todos
      = [⟨"a", "x", "No due date", true, "pending"⟩] :=
  (status_never_updated
      { todos := [⟨"a", "x", "No due date", false, "pending"⟩]
        storage := Stored.absent } "r" "t" "d" "a" "n").2.2.2.2.2.1
    [] ⟨"a", "x", "No due date", false, "pending"⟩ [] rfl rfl
    (fun u hu => absurd hu (List.not_mem_nil u))

/-- C2 counterexample: because getRandomId performs no uniqueness check,
the same random fragments on two adds yield a reachable collection
whose ids are not pairwise distinct; the second add's record reuses an
id already present in the collection. -/
theorem duplicate_ids_reachable :
    Reachable (run [Op.add "a" "x" "", Op.add "a" "y" ""])
    ∧ ¬ ((run [Op.add "a" "x" "", Op.add "a" "y" ""]).todos.map Todo.id).Nodup
    ∧ (TodoManager.addTodo "a" "y" "" (run [Op.add "a" "x" ""])).2.id
        ∈ (run [Op.add "a" "x" ""]).todos.map Todo.id :=
  ⟨⟨[Op.add "a" "x" "", Op.add "a" "y" ""], rfl⟩, by decide, by decide⟩

/-- C2 (amended): pairwise distinctness of ids is an invariant of every
operation only under the assumption that the generated id is fresh:
from a collection with pairwise-distinct ids, addTodo with an id not
already present preserves distinctness (and the new record carries
exactly that id), and editTodo, deleteTodo, toggleTodoStatus and
clearAllTodos preserve distinctness unconditionally; the generator
itself performs no uniqueness check, so a colliding id breaks the
invariant (see the counterexample). -/
theorem distinct_ids_preserved (s : TodoManager)
    (h : (s.todos.map Todo.id).Nodup) :
    (∀ rnd task dueDate : String, rnd ∉ s.todos.map Todo.id →
        ((TodoManager.addTodo rnd task dueDate s).1.todos.map Todo.id).Nodup
        ∧ (TodoManager.addTodo rnd task dueDate s).2.id = rnd)
    ∧ (∀ id updatedTask : String,
        ((TodoManager.editTodo id updatedTask s).1.todos.map Todo.id).Nodup)
    ∧ (∀ id : String, ((TodoManager.deleteTodo id s).todos.map Todo.id).Nodup)
    ∧ (∀ id : String, ((TodoManager.toggleTodoStatus id s).todos.map Todo.id).Nodup)
    ∧ ((TodoManager.clearAllTodos s).todos.map Todo.id).Nodup := by
  refine ⟨?_, ?_, ?_, ?_, ?_⟩
  · intro rnd task dueDate hf
    refine ⟨?_, rfl⟩
    have hmap : (TodoManager.addTodo rnd task dueDate s).1.todos.map Todo.id
        = s.todos.map Todo.id ++ [rnd] := by
      simp [TodoManager.addTodo]
    rw [hmap, List.nodup_append]
    exact ⟨h, List.nodup_singleton rnd, by simpa [List.disjoint_singleton] using hf⟩
  · intro id updatedTask
    rw [editTodo_map id updatedTask Todo.id (fun t => rfl) s]
    exact h
  · intro id
    exact List.Nodup.sublist ((List.filter_sublist s.todos).map Todo.id) h
  · intro id
    rw [toggleTodoStatus_map id Todo.id (fun t => rfl) s]
    exact h
  · by_cases hl : s.todos.length > 0
    · simp [TodoManager.clearAllTodos, hl]
    · simp [TodoManager.clearAllTodos, hl, h]

/-- C2 witness: adding a fresh id to the empty initial collection keeps
the ids pairwise distinct. -/
theorem distinct_ids_preserved_witness :
    ((TodoManager.addTodo "a" "x" "" initState).1.todos.map Todo.id).Nodup :=
  ((distinct_ids_preserved initState (by decide)).1 "a" "x" "" (by decide)).1

/-- C9: on the add-task trigger with empty task input text the UI shows
the error alert "Please enter a task" and changes nothing else — in
particular the store (collection and persisted state) is untouched;
with non-empty task text it applies the store's addTodo and clears both
inputs, showing the success alert. -/
theorem handleAddTodo_spec (rnd : String) (ui : UIState) :
    (ui.taskInput = "" →
        handleAddTodo rnd ui
          = { ui with alertMessage := some ("Please enter a task", "error") }
        ∧ (handleAddTodo rnd ui).manager = ui.manager)
    ∧ (ui.taskInput ≠ "" →
        (handleAddTodo rnd ui).manager
          = (TodoManager.addTodo rnd ui.taskInput ui.dateInput ui.manager).1
        ∧ (handleAddTodo rnd ui).taskInput = ""
        ∧ (handleAddTodo rnd ui).dateInput = ""
        ∧ (handleAddTodo rnd ui).alertMessage
          = some ("Task added successfully", "success")) := by
  constructor
  · intro h
    constructor <;> simp [handleAddTodo, h]
  · intro h
    refine ⟨?_, ?_, ?_, ?_⟩ <;> simp [handleAddTodo, h]

/-- C9 witness: with empty task input the handler only sets the error
alert and the store is untouched. -/
theorem handleAddTodo_spec_witness :
    handleAddTodo "r"
        { taskInput := "", dateInput := "2024-01-01", alertMessage := none
          manager := initState }
      = { taskInput := "", dateInput := "2024-01-01"
          alertMessage := some ("Please enter a task", "error")
          manager := initState } :=
  ((handleAddTodo_spec "r"
      { taskInput := "", dateInput := "2024-01-01", alertMessage := none
        manager := initState }).1 rfl).1
